import Mathlib

set_option maxRecDepth 4000

/-!
A shallow embedding of the service in src/main.py: a minimal CRUD layer over
a single `items` table. The embedding models the persisted table as a list
of rows plus the store's id sequence, the pydantic schema check on the raw
payload, the four request handlers (health probe, create, list, delete), and
the session manager `get_db` that closes the session on every exit path.
-/

/-- Python's `str.strip()`: the string with leading and trailing whitespace
removed. -/
def String.strip (s : String) : String :=
  ⟨((s.data.dropWhile Char.isWhitespace).reverse.dropWhile Char.isWhitespace).reverse⟩

/-- One row of the `items` table (the SQLAlchemy `Item` model): integer
primary key `id`, non-null `title`, nullable `description`. -/
structure Item where
  id : Nat
  title : String
  description : Option String
deriving DecidableEq

/-- The persisted state: the rows of the `items` table in insertion order,
and the store's id sequence (`nextId` is the next primary key the store
assigns). -/
structure ItemsTable where
  rows : List Item
  nextId : Nat
deriving DecidableEq

/-- An exception `fastapi.HTTPException(status_code, detail)` as raised by
the handlers. -/
structure HTTPException where
  status_code : Nat
  detail : String
deriving DecidableEq

/-- How a request can fail: rejected by the pydantic schema before the
handler runs (FastAPI's 422 request-validation response), or by an
`HTTPException` raised inside the handler. -/
inductive RequestError where
  | schemaValidation
  | http (e : HTTPException)
deriving DecidableEq

/-- The request body schema `ItemCreate`. -/
structure ItemCreate where
  title : String
  description : Option String
deriving DecidableEq

/-- The pydantic field constraints of `ItemCreate`:
`title: str = Field(..., min_length=1, max_length=200)` bounds the raw,
unstripped title; `description: Optional[str] = None` is unconstrained. -/
def ItemCreate.valid (p : ItemCreate) : Bool :=
  1 ≤ p.title.length && p.title.length ≤ 200

/-- The handler of `POST /items` (`create_item`): strips the title, raises
400 "title is required" when the stripped title is empty, otherwise inserts
one row (id assigned by the store), commits, and returns the refreshed
entity with the route's status 201. Raising leaves the table untouched. -/
def create_item (payload : ItemCreate) (db : ItemsTable) :
    Except HTTPException (Nat × Item) × ItemsTable :=
  let title := payload.title.strip
  if title = "" then
    (.error ⟨400, "title is required"⟩, db)
  else
    let item : Item := ⟨db.nextId, title, payload.description⟩
    (.ok (201, item), ⟨db.rows ++ [item], db.nextId + 1⟩)

/-- The full `POST /items` request: pydantic validates the payload first
(422 on failure), then `create_item` runs. -/
def post_items (title : String) (description : Option String) (db : ItemsTable) :
    Except RequestError (Nat × Item) × ItemsTable :=
  let payload : ItemCreate := ⟨title, description⟩
  if payload.valid then
    match create_item payload db with
    | (.ok r, db2) => (.ok r, db2)
    | (.error e, db2) => (.error (.http e), db2)
  else
    (.error .schemaValidation, db)

/-- The ordering `ORDER BY id DESC` as a relation on rows: `a` may come
before `b`. -/
def idDesc (a b : Item) : Prop := b.id ≤ a.id

instance : DecidableRel idDesc := fun a b => Nat.decLe b.id a.id

instance : IsTotal Item idDesc := ⟨fun a b => Nat.le_total b.id a.id⟩

instance : IsTrans Item idDesc := ⟨fun _ _ _ h1 h2 => Nat.le_trans h2 h1⟩

/-- The handler of `GET /items` (`list_items`), that is
`db.query(Item).order_by(Item.id.desc()).all()`: every row of the table,
ordered by id descending; the table is not modified. -/
def list_items (db : ItemsTable) : List Item × ItemsTable :=
  (db.rows.insertionSort idDesc, db)

/-- The body of the `DELETE /items/{item_id}` response. -/
structure DeleteOut where
  deleted : Bool
  id : Nat
deriving DecidableEq

/-- The handler of `DELETE /items/{item_id}` (`delete_item`): looks up the
first row with the given id; raises 404 "item not found" when there is
none, otherwise deletes that row, commits, and returns
`{"deleted": True, "id": item_id}`. -/
def delete_item (item_id : Nat) (db : ItemsTable) :
    Except HTTPException DeleteOut × ItemsTable :=
  match db.rows.find? (fun r => r.id == item_id) with
  | none => (.error ⟨404, "item not found"⟩, db)
  | some _ =>
      (.ok ⟨true, item_id⟩, ⟨db.rows.eraseP (fun r => r.id == item_id), db.nextId⟩)

/-- The handler of `GET /health/db` (`health_db`): runs `SELECT 1` and
returns `{"ok": True}`; it never touches the `items` table. -/
def health_db (db : ItemsTable) : Bool × ItemsTable :=
  (true, db)

/-- A database session as the session manager sees it. -/
structure DBSession where
  isOpen : Bool
deriving DecidableEq

/-- A call of `SessionLocal()`: a freshly acquired, open session. -/
def SessionLocal : DBSession := ⟨true⟩

/-- The call `db.close()`. -/
def DBSession.close (_ : DBSession) : DBSession := ⟨false⟩

/-- The dependency `get_db`: acquire a session, run the request handler with
it inside `try`, and close the session in the `finally` block — on the
normal exit and on the exception exit alike. The result records the
handler's outcome, the table it left behind, and the session's final
state. -/
def get_db {α : Type} (handler : ItemsTable → Except RequestError α × ItemsTable)
    (db : ItemsTable) : (Except RequestError α × ItemsTable) × DBSession :=
  let s := SessionLocal
  let r := handler db
  (r, s.close)

/-- The states reachable from the empty table through the service's
operations (error paths included: a failed request leaves the table it was
given). The store's id sequence starts at 1. -/
inductive Reachable : ItemsTable → Prop where
  | empty : Reachable ⟨[], 1⟩
  | probe (db : ItemsTable) : Reachable db → Reachable (health_db db).2
  | created (t : String) (d : Option String) (db : ItemsTable) :
      Reachable db → Reachable (post_items t d db).2
  | listed (db : ItemsTable) : Reachable db → Reachable (list_items db).2
  | deleted (i : Nat) (db : ItemsTable) :
      Reachable db → Reachable (delete_item i db).2

/-- Whether the full `POST /items` request succeeds. -/
def accepted (title : String) (d : Option String) (db : ItemsTable) : Bool :=
  match (post_items title d db).1 with
  | .ok _ => true
  | .error _ => false

/-! ## Helper lemmas -/

theorem strip_empty : "".strip = "" := rfl

theorem length_pos_of_ne_empty (s : String) (h : s ≠ "") : 1 ≤ s.length := by
  cases s with
  | mk l =>
    cases l with
    | nil => exact absurd rfl h
    | cons c cs => simp [String.length]

theorem ne_empty_of_strip_ne_empty (s : String) (h : s.strip ≠ "") : s ≠ "" := by
  intro he
  subst he
  exact h rfl

/-- The outcome of a successful create: the one equation both the create
claim and the create-then-list claim rest on. -/
theorem post_items_ok (t : String) (d : Option String) (db : ItemsTable)
    (h1 : t.strip ≠ "") (h2 : t.length ≤ 200) :
    post_items t d db =
      (.ok (201, ⟨db.nextId, t.strip, d⟩),
       ⟨db.rows ++ [⟨db.nextId, t.strip, d⟩], db.nextId + 1⟩) := by
  have hlen : 1 ≤ t.length := length_pos_of_ne_empty t (ne_empty_of_strip_ne_empty t h1)
  simp [post_items, ItemCreate.valid, create_item, hlen, h2, h1]

/-- Create either leaves the table alone (on a rejected request) or appends
exactly the one new row. -/
theorem post_items_snd (t : String) (d : Option String) (db : ItemsTable) :
    (post_items t d db).2 = db ∨
      (t.strip ≠ "" ∧
        (post_items t d db).2 =
          ⟨db.rows ++ [⟨db.nextId, t.strip, d⟩], db.nextId + 1⟩) := by
  cases hv : (ItemCreate.mk t d).valid with
  | false => left; simp [post_items, hv]
  | true =>
    by_cases hs : t.strip = ""
    · left; simp [post_items, create_item, hv, hs]
    · right; exact ⟨hs, by simp [post_items, create_item, hv, hs]⟩

/-- Delete either leaves the table alone (on a missing id) or erases the
first row carrying the id. -/
theorem delete_item_snd (i : Nat) (db : ItemsTable) :
    (delete_item i db).2 = db ∨
      (delete_item i db).2 = ⟨db.rows.eraseP (fun r => r.id == i), db.nextId⟩ := by
  cases hfind : db.rows.find? (fun r => r.id == i) with
  | none => left; simp [delete_item, hfind]
  | some x => right; simp [delete_item, hfind]

theorem dropWhile_exists_not {p : Char → Bool} (l : List Char)
    (h : l.dropWhile p ≠ []) : ∃ c ∈ l.dropWhile p, p c = false := by
  induction l with
  | nil => exact absurd rfl h
  | cons a t ih =>
    rw [List.dropWhile_cons] at h ⊢
    by_cases hpa : p a = true
    · rw [if_pos hpa] at h ⊢
      exact ih h
    · rw [if_neg hpa]
      exact ⟨a, List.mem_cons_self a t, by simpa using hpa⟩

/-- A non-empty stripped string contains a character that is not
whitespace: exactly what "not whitespace-only" means for a stored title. -/
theorem strip_exists_nonws (s : String) (h : s.strip ≠ "") :
    ∃ c ∈ s.strip.data, c.isWhitespace = false := by
  have hdata : s.strip.data ≠ [] := by
    intro hd
    apply h
    exact String.ext (by rw [hd])
  have hinner :
      ((s.data.dropWhile Char.isWhitespace).reverse.dropWhile Char.isWhitespace) ≠ [] := by
    intro hi
    apply hdata
    show ((s.data.dropWhile Char.isWhitespace).reverse.dropWhile Char.isWhitespace).reverse = []
    rw [hi]
    rfl
  obtain ⟨c, hc, hcw⟩ := dropWhile_exists_not _ hinner
  refine ⟨c, ?_, hcw⟩
  show c ∈ ((s.data.dropWhile Char.isWhitespace).reverse.dropWhile Char.isWhitespace).reverse
  simpa using hc

/-- The head of the descending sort is the row with the strictly greatest
id. -/
theorem head_insertionSort_of_max (l : List Item) (m : Item)
    (h : ∀ r ∈ l, r.id < m.id) :
    ((l ++ [m]).insertionSort idDesc).head? = some m := by
  have hperm := List.perm_insertionSort idDesc (l ++ [m])
  have hmem : m ∈ (l ++ [m]).insertionSort idDesc := by
    rw [List.mem_insertionSort]
    simp
  have hsorted := List.sorted_insertionSort idDesc (l ++ [m])
  cases hout : (l ++ [m]).insertionSort idDesc with
  | nil =>
    rw [hout] at hmem
    simp at hmem
  | cons h0 t0 =>
    rw [hout] at hmem hsorted
    have hh0 : h0 ∈ l ++ [m] := hperm.mem_iff.mp (by rw [hout]; simp)
    rcases List.mem_append.mp hh0 with hmemL | hmemM
    · have hlt : h0.id < m.id := h h0 hmemL
      rcases List.mem_cons.mp hmem with heq | hmt
      · rw [heq] at hlt
        omega
      · have hrel := List.rel_of_sorted_cons hsorted m hmt
        have : m.id ≤ h0.id := hrel
        omega
    · simp at hmemM
      rw [hmemM]
      simp

/-- On a table with unique ids (the primary-key guarantee), erasing the
first row with a given id is the same as keeping every row with a different
id. -/
theorem eraseP_eq_filter_of_nodup (l : List Item) (i : Nat)
    (h : (l.map Item.id).Nodup) :
    l.eraseP (fun r => r.id == i) = l.filter (fun r => r.id != i) := by
  induction l with
  | nil => rfl
  | cons a t ih =>
    rw [List.map_cons, List.nodup_cons] at h
    by_cases ha : a.id = i
    · have hall : ∀ s ∈ t, (s.id != i) = true := by
        intro s hs
        have hne : s.id ≠ i := by
          intro he
          exact h.1 (by rw [ha, ← he]; exact List.mem_map_of_mem Item.id hs)
        simpa using hne
      have hfilter : t.filter (fun r => r.id != i) = t := List.filter_eq_self.mpr hall
      simp [List.eraseP_cons, List.filter_cons, ha, hfilter]
    · have ha2 : (a.id == i) = false := by simpa using ha
      have ha3 : (a.id != i) = true := by simpa using ha
      simp [List.eraseP_cons, List.filter_cons, ha2, ha3]
      exact ih h.2

/-! ## The claims -/

/-- C1: for every payload whose title is non-empty after stripping the
surrounding whitespace (a payload's raw title has at most 200 characters,
the schema bound), create inserts exactly one new row whose title is the
stripped input title and whose description is the input description,
commits that insert, and returns the fully populated entity — the
store-assigned id, the title and the description — with status 201. -/
theorem C1_create_inserts_one_row (title : String) (d : Option String)
    (db : ItemsTable) (h1 : title.strip ≠ "") (h2 : title.length ≤ 200) :
    post_items title d db =
      (.ok (201, ⟨db.nextId, title.strip, d⟩),
       ⟨db.rows ++ [⟨db.nextId, title.strip, d⟩], db.nextId + 1⟩) :=
  post_items_ok title d db h1 h2

theorem C1_create_inserts_one_row_witness :
    post_items "Buy milk" none ⟨[], 1⟩ =
      (.ok (201, ⟨1, "Buy milk", none⟩), ⟨[⟨1, "Buy milk", none⟩], 2⟩) :=
  C1_create_inserts_one_row "Buy milk" none ⟨[], 1⟩ (by decide) (by decide)

/-- C4: list returns every row of the table (a permutation of them), sorted
by id in descending order, with no filtering and no pagination; its result
is empty exactly when the table is empty; and the table state is left
unchanged — list is read-only. -/
theorem C4_list_ordered_readonly (db : ItemsTable) :
    (list_items db).2 = db ∧
      (list_items db).1.Perm db.rows ∧
      List.Sorted idDesc (list_items db).1 ∧
      ((list_items db).1 = [] ↔ db.rows = []) := by
  refine ⟨rfl, List.perm_insertionSort idDesc db.rows,
    List.sorted_insertionSort idDesc db.rows, ?_, ?_⟩
  · intro h
    have h2 := List.perm_insertionSort idDesc db.rows
    rw [show (list_items db).1 = db.rows.insertionSort idDesc from rfl] at h
    rw [h] at h2
    exact h2.symm.eq_nil
  · intro h
    show db.rows.insertionSort idDesc = []
    rw [h]
    rfl

/-- C5: delete on an id not present in the table fails with the 404
HTTPException "item not found" and leaves the table unchanged. -/
theorem C5_delete_missing_id (item_id : Nat) (db : ItemsTable)
    (habs : ∀ r ∈ db.rows, r.id ≠ item_id) :
    delete_item item_id db = (.error ⟨404, "item not found"⟩, db) := by
  have hfind : db.rows.find? (fun r => r.id == item_id) = none := by
    rw [List.find?_eq_none]
    intro r hr
    simpa using habs r hr
  simp [delete_item, hfind]

theorem C5_delete_missing_id_witness :
    delete_item 1 ⟨[⟨2, "Read book", some "ch.1"⟩], 3⟩ =
      (.error ⟨404, "item not found"⟩, ⟨[⟨2, "Read book", some "ch.1"⟩], 3⟩) :=
  C5_delete_missing_id 1 ⟨[⟨2, "Read book", some "ch.1"⟩], 3⟩ (by decide)

/-- C9: for every request, the session acquired from the session manager is
closed on every exit path of the request handling — whatever outcome the
handler produces, normal return or error, no execution path leaves the
session open. -/
theorem C9_session_always_closed (α : Type)
    (handler : ItemsTable → Except RequestError α × ItemsTable)
    (db : ItemsTable) : (get_db handler db).2.isOpen = false :=
  rfl

/-- C2 counterexample: with the empty title the request is rejected by the
pydantic schema (`min_length=1`) before the handler runs, so the error is
the request-validation error (a 422), not the 400 HTTPException
"title is required" the claim states. -/
theorem C2_empty_title_counterexample :
    (post_items "" none ⟨[], 1⟩).1 = .error .schemaValidation ∧
      (post_items "" none ⟨[], 1⟩).1 ≠ .error (.http ⟨400, "title is required"⟩) := by
  constructor
  · rfl
  · intro h
    rw [show (post_items "" none ⟨[], 1⟩).1 =
        Except.error RequestError.schemaValidation from rfl] at h
    simp at h

/-- C2 (amended): for every title that strips to the empty string the
request always fails and the table is unchanged; when the title is the
empty string the failure is the schema-validation rejection (pydantic's
`min_length=1`, a 422), and when the raw title is within the schema bounds
(length 1..200, e.g. whitespace-only) the failure is the ValidationError
with message "title is required" (client error 400). -/
theorem C2_blank_title_no_row (title : String) (d : Option String)
    (db : ItemsTable) (hblank : title.strip = "") :
    (post_items title d db).2 = db ∧
      (∃ e, (post_items title d db).1 = .error e) ∧
      (title = "" → (post_items title d db).1 = .error .schemaValidation) ∧
      (1 ≤ title.length → title.length ≤ 200 →
        (post_items title d db).1 = .error (.http ⟨400, "title is required"⟩)) := by
  by_cases hv : 1 ≤ title.length ∧ title.length ≤ 200
  · have hvb : (ItemCreate.mk title d).valid = true := by
      rw [ItemCreate.valid]
      simp [hv.1, hv.2]
    have heq : post_items title d db =
        (.error (.http ⟨400, "title is required"⟩), db) := by
      simp [post_items, create_item, hvb, hblank]
    rw [heq]
    refine ⟨rfl, ⟨_, rfl⟩, ?_, fun _ _ => rfl⟩
    intro he
    subst he
    exact absurd hv.1 (by decide)
  · have hvb : (ItemCreate.mk title d).valid = false := by
      rw [ItemCreate.valid]
      by_contra hb
      rw [Bool.not_eq_false] at hb
      simp at hb
      exact hv hb
    have heq : post_items title d db = (.error .schemaValidation, db) := by
      simp [post_items, hvb]
    rw [heq]
    refine ⟨rfl, ⟨_, rfl⟩, fun _ => rfl, ?_⟩
    intro h1 h2
    exact absurd ⟨h1, h2⟩ hv

theorem C2_blank_title_no_row_witness :
    (post_items "   " none ⟨[], 1⟩).1 = .error (.http ⟨400, "title is required"⟩) :=
  (C2_blank_title_no_row "   " none ⟨[], 1⟩ (by decide)).2.2.2 (by decide) (by decide)

/-- C3 counterexample: a 201-character title (200 letters and a trailing
blank) strips to 200 characters — within 1..200 — yet create rejects it,
because the pydantic bound `max_length=200` applies to the raw, unstripped
title. -/
theorem C3_overlong_title_counterexample :
    (1 ≤ (String.mk (List.replicate 200 'a' ++ [' '])).strip.length ∧
        (String.mk (List.replicate 200 'a' ++ [' '])).strip.length ≤ 200) ∧
      accepted (String.mk (List.replicate 200 'a' ++ [' '])) none ⟨[], 1⟩ = false := by
  refine ⟨⟨?_, ?_⟩, ?_⟩
  · decide
  · decide
  · decide

/-- C3 (amended): create accepts a title if and only if the raw, unstripped
title has between 1 and 200 characters and the stripped title is non-empty:
the length bound is checked before trimming, so a title whose stripped
length lies in 1..200 can still be rejected when its raw length exceeds
200. -/
theorem C3_accepts_iff (title : String) (d : Option String) (db : ItemsTable) :
    accepted title d db = true ↔
      (1 ≤ title.length ∧ title.length ≤ 200 ∧ title.strip ≠ "") := by
  by_cases h1 : 1 ≤ title.length ∧ title.length ≤ 200
  · have hv : (ItemCreate.mk title d).valid = true := by
      rw [ItemCreate.valid]
      simp [h1.1, h1.2]
    by_cases hs : title.strip = ""
    · have ha : accepted title d db = false := by
        simp [accepted, post_items, create_item, hv, hs]
      rw [ha]
      simp [hs]
    · have ha : accepted title d db = true := by
        simp [accepted, post_items, create_item, hv, hs]
      rw [ha]
      simp [h1.1, h1.2, hs]
  · have hv : (ItemCreate.mk title d).valid = false := by
      rw [ItemCreate.valid]
      by_contra hb
      rw [Bool.not_eq_false] at hb
      simp at hb
      exact h1 hb
    have ha : accepted title d db = false := by
      simp [accepted, post_items, hv]
    rw [ha]
    constructor
    · intro h
      exact absurd h (by decide)
    · rintro ⟨ha1, ha2, _⟩
      exact absurd ⟨ha1, ha2⟩ h1

/-- C6: for an id present in a table with unique ids (the primary-key
guarantee), delete removes exactly the row with that id, leaves every other
row unchanged and in order, commits, and returns the confirmation
`{deleted: true, id}`; a subsequent list excludes the deleted row. -/
theorem C6_delete_removes_exactly (item_id : Nat) (db : ItemsTable)
    (hnodup : (db.rows.map Item.id).Nodup)
    (hmem : ∃ r ∈ db.rows, r.id = item_id) :
    delete_item item_id db =
        (.ok ⟨true, item_id⟩,
         ⟨db.rows.filter (fun s => s.id != item_id), db.nextId⟩) ∧
      ∀ s ∈ (list_items (delete_item item_id db).2).1, s.id ≠ item_id := by
  obtain ⟨r, hr, hid⟩ := hmem
  have herase := eraseP_eq_filter_of_nodup db.rows item_id hnodup
  cases hfx : db.rows.find? (fun s => s.id == item_id) with
  | none =>
    exfalso
    rw [List.find?_eq_none] at hfx
    exact hfx r hr (by simpa using hid)
  | some x =>
    have heq : delete_item item_id db =
        (.ok ⟨true, item_id⟩,
         ⟨db.rows.filter (fun s => s.id != item_id), db.nextId⟩) := by
      simp [delete_item, hfx, herase]
    refine ⟨heq, ?_⟩
    intro s hs
    rw [heq] at hs
    have hs2 : s ∈ db.rows.filter (fun t => t.id != item_id) := by
      simpa [list_items, List.mem_insertionSort] using hs
    have := (List.mem_filter.mp hs2).2
    simpa using this

theorem C6_delete_removes_exactly_witness :
    delete_item 1 ⟨[⟨1, "Buy milk", none⟩, ⟨2, "Read book", some "ch.1"⟩], 3⟩ =
      (.ok ⟨true, 1⟩, ⟨[⟨2, "Read book", some "ch.1"⟩], 3⟩) :=
  (C6_delete_removes_exactly 1
    ⟨[⟨1, "Buy milk", none⟩, ⟨2, "Read book", some "ch.1"⟩], 3⟩
    (by decide) (by decide)).1

/-- C7: when the store assigns the new row an id greater than every
existing id, create followed by list yields the created entity — the
stripped title and the given description — at the head of the returned
sequence. -/
theorem C7_create_then_list_head (title : String) (d : Option String)
    (db : ItemsTable) (h1 : title.strip ≠ "") (h2 : title.length ≤ 200)
    (hfresh : ∀ r ∈ db.rows, r.id < db.nextId) :
    (list_items (post_items title d db).2).1.head? =
      some ⟨db.nextId, title.strip, d⟩ := by
  rw [post_items_ok title d db h1 h2]
  exact head_insertionSort_of_max db.rows ⟨db.nextId, title.strip, d⟩ hfresh

theorem C7_create_then_list_head_witness :
    (list_items
        (post_items "Read book" (some "ch.1") ⟨[⟨1, "Buy milk", none⟩], 2⟩).2).1.head? =
      some ⟨2, "Read book", some "ch.1"⟩ :=
  C7_create_then_list_head "Read book" (some "ch.1") ⟨[⟨1, "Buy milk", none⟩], 2⟩
    (by decide) (by decide) (by decide)

/-- C8: in every state reachable through the service's operations no
persisted row has an empty or whitespace-only title; and no operation
modifies the fields of an existing row — probe and list leave the table
untouched, create only appends its one new row, and delete only removes
whole rows. -/
theorem C8_lifecycle_invariant :
    (∀ db, Reachable db → ∀ r ∈ db.rows,
        r.title ≠ "" ∧ ∃ c ∈ r.title.data, c.isWhitespace = false) ∧
      (∀ db, (health_db db).2 = db) ∧
      (∀ db, (list_items db).2 = db) ∧
      (∀ t d db, ∀ r ∈ db.rows, r ∈ (post_items t d db).2.rows) ∧
      (∀ i db, ∀ r ∈ (delete_item i db).2.rows, r ∈ db.rows) := by
  refine ⟨?_, fun _ => rfl, fun _ => rfl, ?_, ?_⟩
  · intro db hdb
    induction hdb with
    | empty =>
      intro r hr
      simp at hr
    | probe db hdb ih => exact ih
    | created t d db hdb ih =>
      rcases post_items_snd t d db with h | ⟨hs, h⟩
      · rw [h]
        exact ih
      · rw [h]
        intro r hr
        rcases List.mem_append.mp hr with hold | hnew
        · exact ih r hold
        · simp at hnew
          subst hnew
          exact ⟨hs, strip_exists_nonws t hs⟩
    | listed db hdb ih => exact ih
    | deleted i db hdb ih =>
      rcases delete_item_snd i db with h | h
      · rw [h]
        exact ih
      · rw [h]
        intro r hr
        exact ih r (List.mem_of_mem_eraseP hr)
  · intro t d db r hr
    rcases post_items_snd t d db with h | ⟨_, h⟩
    · rw [h]
      exact hr
    · rw [h]
      exact List.mem_append.mpr (Or.inl hr)
  · intro i db r hr
    rcases delete_item_snd i db with h | h
    · rw [h] at hr
      exact hr
    · rw [h] at hr
      exact List.mem_of_mem_eraseP hr

/-- C10: create never validates, strips or bounds the description — whether
a request is accepted does not depend on the description at all, and on
every accepted request the description is persisted and returned verbatim:
an explicit empty string stays the empty string, an omitted description
(None) stays null. -/
theorem C10_description_passthrough :
    ∀ (title : String) (d1 d2 : Option String) (db : ItemsTable),
      accepted title d1 db = accepted title d2 db ∧
        ∀ st item, (post_items title d1 db).1 = .ok (st, item) →
          item.description = d1 ∧ item ∈ (post_items title d1 db).2.rows := by
  intro title d1 d2 db
  constructor
  · by_cases hv : 1 ≤ title.length ∧ title.length ≤ 200
    · have hv1 : (ItemCreate.mk title d1).valid = true := by
        rw [ItemCreate.valid]
        simp [hv.1, hv.2]
      have hv2 : (ItemCreate.mk title d2).valid = true := by
        rw [ItemCreate.valid]
        simp [hv.1, hv.2]
      by_cases hs : title.strip = ""
      · simp [accepted, post_items, create_item, hv1, hv2, hs]
      · simp [accepted, post_items, create_item, hv1, hv2, hs]
    · have hv1 : (ItemCreate.mk title d1).valid = false := by
        rw [ItemCreate.valid]
        by_contra hb
        rw [Bool.not_eq_false] at hb
        simp at hb
        exact hv hb
      have hv2 : (ItemCreate.mk title d2).valid = false := hv1
      simp [accepted, post_items, hv1, hv2]
  · intro st item hok
    by_cases hv : 1 ≤ title.length ∧ title.length ≤ 200
    · by_cases hs : title.strip = ""
      · have hvb : (ItemCreate.mk title d1).valid = true := by
          rw [ItemCreate.valid]
          simp [hv.1, hv.2]
        have heq : post_items title d1 db =
            (.error (.http ⟨400, "title is required"⟩), db) := by
          simp [post_items, create_item, hvb, hs]
        rw [heq] at hok
        simp at hok
      · have heq := post_items_ok title d1 db hs hv.2
        rw [heq] at hok
        simp only [Except.ok.injEq, Prod.mk.injEq] at hok
        obtain ⟨hst, hitem⟩ := hok
        subst hitem
        refine ⟨rfl, ?_⟩
        rw [heq]
        simp
    · have hvb : (ItemCreate.mk title d1).valid = false := by
        rw [ItemCreate.valid]
        by_contra hb
        rw [Bool.not_eq_false] at hb
        simp at hb
        exact hv hb
      have heq : post_items title d1 db = (.error .schemaValidation, db) := by
        simp [post_items, hvb]
      rw [heq] at hok
      simp at hok
